import Mathlib

/-!
Verification development for the dexscan-backend repository.

The embedding translates `src/server.js` (ledger, order endpoint, close
endpoint, auto worker, monitor loop, analysis engine) and `src/bitget.js`
(venue adapter) into executable Lean definitions.

Modelling conventions:
* JavaScript numbers are modelled as exact rationals (`ℚ`), following the
  spec's declared numeric semantics (fixed-point decimals at persistence
  boundaries); IEEE-754 binary rounding is not modelled.
* JavaScript `undefined`/`null` fields are modelled with `Option`.
* External I/O (venue responses, resolved prices, timestamps) enters each
  operation as explicit parameters, so every operation is a pure function
  of its inputs.
* `Date.now()`-derived ids `"t_" + ms` and `"sim_" + ms` are modelled by the
  two constructors of `TradeId`, keeping the prefix/timestamp structure.
-/

namespace DexScan

deriving instance DecidableEq for Except

/-- Runtime configuration taken from environment variables in `server.js`
(`FEE_PERCENT`, `TP_PERCENT`, `PERCENT_PER_TRADE`, `MAX_CONCURRENT`,
`BITGET_DEMO`). -/
structure Env where
  feePercent : ℚ
  tpPercent : ℚ
  defaultPercent : ℚ
  maxConcurrent : ℚ
  demo : Bool
deriving DecidableEq

/-- The default environment: `FEE_PERCENT=0.2`, `TP_PERCENT=10`,
`PERCENT_PER_TRADE=2`, `MAX_CONCURRENT=10`, demo off. -/
def defaultEnv : Env :=
  { feePercent := 1/5, tpPercent := 10, defaultPercent := 2,
    maxConcurrent := 10, demo := false }

/-- Trade ids in `server.js` are `"t_" + Date.now()` for venue-confirmed
orders and `"sim_" + Date.now()` for simulated ones; the constructor keeps
the prefix and the millisecond timestamp. -/
inductive TradeId where
  | live (ms : ℕ)
  | sim (ms : ℕ)
deriving DecidableEq

/-- A ledger record as created by `/api/bitget/order` and mutated by
`/api/trade/close` in `server.js`. Close-time fields are `Option` and
`none` until the close transition writes them. -/
structure Trade where
  id : TradeId
  symbol : String
  side : String
  qty : ℚ
  entry_price : ℚ
  invested : ℚ
  buy_fee : ℚ
  tp_price : ℚ
  status : String
  demo : Bool
  order_error : Option String
  order_result : Option String
  created_at : ℕ
  autoSell : Option Bool
  exit_price : Option ℚ
  sell_fee : Option ℚ
  gross_proceeds : Option ℚ
  net_proceeds : Option ℚ
  pnl : Option ℚ
  closed_at : Option ℕ
  order_sell_result : Option (Except String String)
deriving DecidableEq

/-- JavaScript `a || b` on a possibly-absent number: `undefined` and `0`
are falsy, any other number is returned as-is. -/
def jsOrQ (a : Option ℚ) (b : ℚ) : ℚ :=
  match a with
  | some x => if x = 0 then b else x
  | none => b

/-- `Number(x).toFixed(8)` re-parsed, i.e. rounding to 8 decimal places,
as applied to quantities in `/api/bitget/order`. -/
def roundTo8 (x : ℚ) : ℚ :=
  (round (x * 100000000) : ℤ) / 100000000

/-- In-place mutation of the first array element matching a predicate,
as JavaScript's `trades.find(...)` followed by field assignment does. -/
def updateFirst (p : α → Bool) (f : α → α) : List α → List α
  | [] => []
  | x :: xs => if p x then f x :: xs else x :: updateFirst p f xs

/-- Number of ledger entries with status `"OPEN"`
(`trades.filter(t => t.status === "OPEN").length`). -/
def openCount (trades : List Trade) : ℕ :=
  (trades.filter (fun t => decide (t.status = "OPEN"))).length

/-- Price resolution shared by the order and close endpoints: an explicit
(truthy) price parameter wins; otherwise the ticker-extracted price if
truthy; otherwise the CoinGecko price, defaulting to `0`. -/
def resolveExitPrice (exitParam tickerPrice cgPrice : Option ℚ) : ℚ :=
  match exitParam with
  | some e => if e = 0 then jsOrQ tickerPrice (jsOrQ cgPrice 0) else e
  | none => jsOrQ tickerPrice (jsOrQ cgPrice 0)

/-- Request body of `/api/bitget/order`: symbol, side, optional percent. -/
structure OrderReq where
  symbol : String
  side : String
  percent : Option ℚ
deriving DecidableEq

/-- The external-world inputs consumed by one `/api/bitget/order` call:
the resolved USDT balance, the two price sources, the venue's reply to
`placeSpotOrder`, and the current time. -/
structure OrderEnvIn where
  usdtBal : ℚ
  tickerPrice : Option ℚ
  cgPrice : Option ℚ
  orderOutcome : Except String String
  now : ℕ
deriving DecidableEq

/-- Outcome of `/api/bitget/order` (HTTP codes in comments). -/
inductive OrderResult where
  | badRequest                 -- 400 "symbol and side required"
  | insufficient               -- 400 "Insufficient USDT"
  | priceUnavailable           -- 500 "price unavailable"
  | simulated (t : Trade)      -- 500 with the simulated trade appended
  | placed (t : Trade)         -- 200 with the official trade appended
deriving DecidableEq

/-- `/api/bitget/order` (`server.js` lines 213-273): sizes the buy from the
balance and percent, resolves a price, attempts the venue order, and appends
an `OPEN` trade to the ledger — a simulated one (`sim_` id, `order_error`)
when the venue call failed, an official one (`t_` id, `autoSell: true`)
when it succeeded. Returns the endpoint outcome and the persisted ledger. -/
def orderRequest (env : Env) (req : OrderReq) (w : OrderEnvIn)
    (trades : List Trade) : OrderResult × List Trade :=
  if req.symbol = "" ∨ req.side = "" then (.badRequest, trades)
  else if w.usdtBal ≤ 0 then (.insufficient, trades)
  else
    let pct := jsOrQ req.percent env.defaultPercent
    let sizeUsd := w.usdtBal * (pct / 100)
    let price := resolveExitPrice none w.tickerPrice w.cgPrice
    if price ≤ 0 then (.priceUnavailable, trades)
    else
      let qty := roundTo8 (sizeUsd / price)
      match w.orderOutcome with
      | .error err =>
        let sim : Trade :=
          { id := .sim w.now, symbol := req.symbol, side := req.side.toUpper,
            qty := qty, entry_price := price, invested := sizeUsd,
            buy_fee := sizeUsd * (env.feePercent / 100),
            tp_price := price * (1 + env.tpPercent / 100),
            status := "OPEN", demo := env.demo,
            order_error := some err, order_result := none,
            created_at := w.now, autoSell := none,
            exit_price := none, sell_fee := none, gross_proceeds := none,
            net_proceeds := none, pnl := none, closed_at := none,
            order_sell_result := none }
        (.simulated sim, trades ++ [sim])
      | .ok d =>
        let tr : Trade :=
          { id := .live w.now, symbol := req.symbol, side := req.side.toUpper,
            qty := qty, entry_price := price, invested := sizeUsd,
            buy_fee := sizeUsd * (env.feePercent / 100),
            tp_price := price * (1 + env.tpPercent / 100),
            status := "OPEN", demo := env.demo,
            order_error := none, order_result := some d,
            created_at := w.now, autoSell := some true,
            exit_price := none, sell_fee := none, gross_proceeds := none,
            net_proceeds := none, pnl := none, closed_at := none,
            order_sell_result := none }
        (.placed tr, trades ++ [tr])

/-- Errors of `/api/trade/close` (HTTP codes in comments). -/
inductive CloseErr where
  | notFound           -- 404 "trade not found"
  | notOpen            -- 400 "trade not open"
  | priceUnavailable   -- 500 "price unavailable"
deriving DecidableEq

/-- `/api/trade/close` (`server.js` lines 276-323): looks the trade up by
id, rejects missing (404) and non-`OPEN` (400 "trade not open") trades
before any price work, resolves an exit price, attempts the venue sell,
then unconditionally records the closure (status `CLOSED`, exit price,
fees, proceeds, PnL, timestamp, venue sell outcome) and persists.
Returns the endpoint outcome together with the persisted ledger; error
paths leave the ledger untouched. -/
def closeTrade (env : Env) (trades : List Trade) (tid : TradeId)
    (exitParam tickerPrice cgPrice : Option ℚ) (now : ℕ)
    (sellResp : Except String String) :
    Except CloseErr Trade × List Trade :=
  match trades.find? (fun x => decide (x.id = tid)) with
  | none => (.error .notFound, trades)
  | some t =>
    if ¬(t.status = "OPEN") then (.error .notOpen, trades)
    else
      let price := resolveExitPrice exitParam tickerPrice cgPrice
      if price ≤ 0 then (.error .priceUnavailable, trades)
      else
        let gross := t.qty * price
        let sellFee := gross * (env.feePercent / 100)
        let net := gross - sellFee
        let pnl := net - t.invested
        let t' : Trade :=
          { t with status := "CLOSED", exit_price := some price,
                   sell_fee := some sellFee, gross_proceeds := some gross,
                   net_proceeds := some net, pnl := some pnl,
                   closed_at := some now,
                   order_sell_result := some sellResp }
        (.ok t', updateFirst (fun x => decide (x.id = tid)) (fun _ => t') trades)

/-- The take-profit test of `monitorTradesLoop` (`server.js` line 463):
`latest >= (t.tp || t.tp_price || t.tp_price || t.tp_price) ||
 latest >= (t.tp_price || t.tp || (t.entry_price * (1 + TP_PERCENT/100)))`.
Ledger records created by this backend never carry a `tp` field, so that
term is `undefined` and each `||`-chain reduces as below (`tp_price` being
replaced by the entry-derived fallback when it is falsy). -/
def tpHit (env : Env) (t : Trade) (latest : ℚ) : Bool :=
  decide (t.tp_price ≤ latest) ||
    decide ((if t.tp_price = 0 then t.entry_price * (1 + env.tpPercent / 100)
             else t.tp_price) ≤ latest)

/-- Body of one iteration of `monitorTradesLoop`'s `for` loop over the open
trades: skip when no (truthy) latest price is known; on a take-profit hit
with `autoSell !== false`, POST `/api/trade/close` with the latest price as
explicit exit price. The accumulator carries the current persisted ledger
and the trace of close requests issued (trade id, exit price). -/
def monitorBody (env : Env) (prices : String → Option ℚ) (now : ℕ)
    (sellResp : TradeId → Except String String) (t : Trade)
    (acc : List Trade × List (TradeId × ℚ)) :
    List Trade × List (TradeId × ℚ) :=
  match prices t.symbol with
  | none => acc
  | some latest =>
    if latest = 0 then acc
    else if tpHit env t latest then
      if t.autoSell ≠ some false then
        ((closeTrade env acc.1 t.id (some latest) none none now
            (sellResp t.id)).2,
         acc.2 ++ [(t.id, latest)])
      else acc
    else acc

/-- Loop of `monitorTradesLoop` over the snapshot of open trades. -/
def monitorGo (env : Env) (prices : String → Option ℚ) (now : ℕ)
    (sellResp : TradeId → Except String String) :
    List Trade → List Trade × List (TradeId × ℚ) →
      List Trade × List (TradeId × ℚ)
  | [], acc => acc
  | t :: rest, acc =>
    monitorGo env prices now sellResp rest (monitorBody env prices now sellResp t acc)

/-- One execution of `monitorTradesLoop` (`server.js` lines 451-482):
reads the ledger, builds the CoinGecko price map, and walks the open
trades, auto-selling take-profit hits through `/api/trade/close`.
Returns the resulting persisted ledger and the trace of close requests. -/
def monitorCycle (env : Env) (prices : String → Option ℚ) (now : ℕ)
    (sellResp : TradeId → Except String String) (trades : List Trade) :
    List Trade × List (TradeId × ℚ) :=
  monitorGo env prices now sellResp
    (trades.filter (fun x => decide (x.status = "OPEN"))) (trades, [])

/-- `Number((cfg.settings && cfg.settings.count) ? cfg.settings.count :
MAX_CONCURRENT)` — the effective concurrency cap of `autoWorker`; a falsy
configured count (absent or `0`) falls back to `MAX_CONCURRENT`. -/
def effMaxCon (env : Env) (count : Option ℚ) : ℚ :=
  match count with
  | some c => if c = 0 then env.maxConcurrent else c
  | none => env.maxConcurrent

/-- One scan signal reaching `autoWorker`'s buy loop, together with the
external-world inputs its `/api/bitget/order` POST will consume. -/
structure BuySignalIn where
  symbol : String
  w : OrderEnvIn

/-- `autoWorker`'s `for (const sig of signals)` loop (`server.js` lines
427-440): re-read the ledger, stop once the open count reaches the cap,
skip symbols that already have an open trade, otherwise issue the internal
buy order (which appends one `OPEN` trade unless balance or price
resolution fails). -/
def buyLoop (env : Env) (maxCon : ℚ) (cfgPercent : Option ℚ) :
    List BuySignalIn → List Trade → List Trade
  | [], trades => trades
  | sig :: rest, trades =>
    if maxCon ≤ (openCount trades : ℚ) then trades
    else if trades.any (fun t =>
        decide (t.symbol = sig.symbol) && decide (t.status = "OPEN")) then
      buyLoop env maxCon cfgPercent rest trades
    else
      buyLoop env maxCon cfgPercent rest
        (orderRequest env ⟨sig.symbol, "buy", cfgPercent⟩ sig.w trades).2

/-- One execution of `autoWorker`'s buy cycle (`server.js` lines 397-447):
no-op when auto-trading is disabled or the open-position count is already
at or above the configured cap; otherwise walk the ranked signals through
`buyLoop`. The scan itself is external I/O, so the ranked signal list is
a parameter. -/
def buyCycle (env : Env) (auto : Bool) (count : Option ℚ)
    (cfgPercent : Option ℚ) (signals : List BuySignalIn)
    (trades : List Trade) : List Trade :=
  if !auto then trades
  else
    let maxCon := effMaxCon env count
    if maxCon ≤ (openCount trades : ℚ) then trades
    else buyLoop env maxCon cfgPercent signals trades

/-- An atomic ledger-affecting event: an externally triggered
`/api/bitget/order` request, one buy-cycle execution, or one monitor-cycle
execution (the interleaving model of §5 of the spec, with each cycle run
to completion). -/
inductive SysStep where
  | order (req : OrderReq) (w : OrderEnvIn)
  | buy (auto : Bool) (count : Option ℚ) (cfgPercent : Option ℚ)
      (signals : List BuySignalIn)
  | monitor (prices : String → Option ℚ) (now : ℕ)
      (sellResp : TradeId → Except String String)

/-- Effect of one `SysStep` on the persisted ledger. -/
def stepRun (env : Env) (trades : List Trade) : SysStep → List Trade
  | .order req w => (orderRequest env req w trades).2
  | .buy a c p s => buyCycle env a c p s trades
  | .monitor pr n sr => (monitorCycle env pr n sr trades).1

/-- Ledger after a sequence of interleaved steps. -/
def runSteps (env : Env) : List SysStep → List Trade → List Trade
  | [], trades => trades
  | s :: rest, trades => runSteps env rest (stepRun env trades s)

/-- One parsed kline row, `k[0..5]` of the Binance response
(`parseFloat` applied to the open-time, open, high, low, close, volume
columns in `analyzeSymbol`). -/
structure Kline where
  openTime : ℚ
  openP : ℚ
  high : ℚ
  low : ℚ
  close : ℚ
  volume : ℚ
deriving DecidableEq

/-- `arr[arr.length - 1]` (`last` in `server.js`): `undefined` on an empty
array. -/
def lastOpt (l : List α) : Option α := l.getLast?

/-- Strip `pat` from the front of `s` if it is literally there. -/
def stripPre : List Char → List Char → Option (List Char)
  | s, [] => some s
  | [], _ :: _ => none
  | c :: cs, p :: ps => if c = p then stripPre cs ps else none

/-- Remove the first occurrence of `pat`, as JavaScript
`s.replace(pat, "")` with a string pattern does. -/
def replFirst : List Char → List Char → List Char
  | [], _ => []
  | c :: cs, pat =>
    match stripPre (c :: cs) pat with
    | some rest => rest
    | none => c :: replFirst cs pat

/-- `symbol.replace("USDT", "")` — first occurrence only. -/
def jsReplaceFirst (s pat : String) : String :=
  String.mk (replFirst s.data pat.data)

/-- `STABLE_BASES` from `server.js`. -/
def STABLE_BASES : List String :=
  ["USDT", "USDC", "BUSD", "DAI", "TUSD", "USDP", "USTC", "FRAX", "USDD",
   "FDUSD"]

/-- EMA of the external `technicalindicators` package (not part of this
repository): SMA of the first `p` values as seed, then
`ema = (v - prev) * (2/(p+1)) + prev`; empty output when fewer than `p`
values are available. -/
def emaCalc (p : ℕ) (vs : List ℚ) : List ℚ :=
  if p = 0 ∨ vs.length < p then []
  else
    let k : ℚ := 2 / ((p : ℚ) + 1)
    List.scanl (fun prev v => (v - prev) * k + prev)
      ((vs.take p).sum / (p : ℚ)) (vs.drop p)

/-- Wilder smoothing used by RSI and ATR: SMA of the first `p` inputs as
seed, then `avg = (prev * (p-1) + x) / p`. -/
def wilderSmooth (p : ℕ) (xs : List ℚ) : List ℚ :=
  if p = 0 ∨ xs.length < p then []
  else
    List.scanl (fun prev x => (prev * ((p : ℚ) - 1) + x) / (p : ℚ))
      ((xs.take p).sum / (p : ℚ)) (xs.drop p)

/-- Successive differences of a series. -/
def diffs : List ℚ → List ℚ
  | [] => []
  | [_] => []
  | a :: b :: rest => (b - a) :: diffs (b :: rest)

/-- RSI of the external `technicalindicators` package (not part of this
repository): Wilder-smoothed average gains/losses,
`rsi = 100 - 100 / (1 + gain/loss)` (`100` when the average loss is
zero). -/
def rsiCalc (p : ℕ) (vs : List ℚ) : List ℚ :=
  let ch := diffs vs
  List.zipWith
    (fun g l => if l = 0 then 100 else 100 - 100 / (1 + g / l))
    (wilderSmooth p (ch.map (fun c => if 0 < c then c else 0)))
    (wilderSmooth p (ch.map (fun c => if c < 0 then -c else 0)))

/-- One MACD output row: the MACD line value with the signal line and
histogram once enough history exists (`undefined` before that). -/
structure MacdOut where
  macd : ℚ
  signal : Option ℚ
  histogram : Option ℚ
deriving DecidableEq

/-- MACD of the external `technicalindicators` package (not part of this
repository): `macd = EMA(fast) - EMA(slow)` on the aligned tails,
`signal = EMA(sig)` of the MACD line, `histogram = macd - signal` where
the signal exists. -/
def macdCalc (fast slow sig : ℕ) (vs : List ℚ) : List MacdOut :=
  let macdLine :=
    List.zipWith (fun a b => a - b) ((emaCalc fast vs).drop (slow - fast))
      (emaCalc slow vs)
  let sigLine := emaCalc sig macdLine
  let off := macdLine.length - sigLine.length
  (List.range macdLine.length).map (fun i =>
    let m := macdLine.getD i 0
    if i < off then ⟨m, none, none⟩
    else
      match sigLine.get? (i - off) with
      | some s => ⟨m, some s, some (m - s)⟩
      | none => ⟨m, none, none⟩)

/-- True ranges after the first candle, given the previous close. -/
def trAux (pc : ℚ) : List (ℚ × ℚ × ℚ) → List ℚ
  | [] => []
  | (h, l, c) :: rest => max (h - l) (max |h - pc| |l - pc|) :: trAux c rest

/-- ATR of the external `technicalindicators` package (not part of this
repository): Wilder-smoothed true ranges (first true range `high - low`). -/
def atrCalc (p : ℕ) (highs lows closes : List ℚ) : List ℚ :=
  match highs.zip (lows.zip closes) with
  | [] => []
  | (h, l, c) :: rest => wilderSmooth p ((h - l) :: trAux c rest)

/-- JavaScript `>` on possibly-`undefined` numbers: `false` whenever either
side is `undefined` (NaN comparison). -/
def jsGT : Option ℚ → Option ℚ → Bool
  | some a, some b => decide (b < a)
  | _, _ => false

/-- JavaScript `<` on possibly-`undefined` numbers. -/
def jsLT : Option ℚ → Option ℚ → Bool
  | some a, some b => decide (a < b)
  | _, _ => false

/-- `macdX && macdX.histogram > 0`: the last MACD row exists and its
histogram is defined and positive. -/
def histPos : Option MacdOut → Bool
  | some m =>
    match m.histogram with
    | some h => decide (0 < h)
    | none => false
  | none => false

/-- `vols1.slice(-20)`. -/
def lastN (n : ℕ) (l : List ℚ) : List ℚ := l.drop (l.length - n)

/-- `vols1[vols1.length-1] > 1.5 * (vols1.slice(-20).reduce(..)/20)` —
the volume-spike test of `analyzeSymbol` (lines 134-135). -/
def volSpike (vols1 : List ℚ) : Bool :=
  jsGT (lastOpt vols1) (some ((3 / 2) * ((lastN 20 vols1).sum / 20)))

/-- The score accumulation of `analyzeSymbol` (`server.js` lines 125-135):
six independent additive conditions with weights 3/2/2/1/1/1, each
satisfied condition appending its reason string. -/
def scoreReasons (ema8_4h ema21_4h : Option ℚ) (macd4h : Option MacdOut)
    (ema8_1h ema21_1h : Option ℚ) (macd1h : Option MacdOut)
    (rsi1h : Option ℚ) (vols1 : List ℚ) : ℤ × List String :=
  let s0 : ℤ × List String := (0, [])
  let s1 := if jsGT ema8_4h ema21_4h then (s0.1 + 3, s0.2 ++ ["4H EMA8>21"])
            else s0
  let s2 := if histPos macd4h then (s1.1 + 2, s1.2 ++ ["4H MACD>0"]) else s1
  let s3 := if jsGT ema8_1h ema21_1h then (s2.1 + 2, s2.2 ++ ["1H EMA8>21"])
            else s2
  let s4 := if histPos macd1h then (s3.1 + 1, s3.2 ++ ["1H MACD>0"]) else s3
  let s5 := if jsGT rsi1h (some 45) && jsLT rsi1h (some 65) then
              (s4.1 + 1, s4.2 ++ ["RSI neutral"])
            else s4
  if volSpike vols1 then (s5.1 + 1, s5.2 ++ ["Volume spike"]) else s5

/-- The indicator bundle reported by `analyzeSymbol`'s success result. -/
structure IndicatorsOut where
  ema8_1h : Option ℚ
  ema21_1h : Option ℚ
  rsi1h : Option ℚ
  macd1h : Option ℚ
  atr1h : Option ℚ
  ema8_4h : Option ℚ
  ema21_4h : Option ℚ
  macd4h : Option ℚ
deriving DecidableEq

/-- Result of `analyzeSymbol`: `{ok:false, symbol, reason}` or
`{ok:true, symbol, score, entry, tp, sl, indicators, reasons}`. -/
inductive AnalyzeResult where
  | err (symbol : String) (reason : String)
  | ok (symbol : String) (score : ℤ) (entry tp sl : ℚ)
      (indicators : IndicatorsOut) (reasons : List String)
deriving DecidableEq

/-- `analyzeSymbol` (`server.js` lines 99-145), with the two fetched kline
series as inputs: guards (USDT quote, non-stable base, enough candles),
indicator computation, score accumulation, and entry/TP/SL derivation.
The stop-loss is `none`-guarded through the ATR option (the JS expression
would produce `NaN` were the ATR `undefined`, which the candle-count guard
prevents). -/
def analyzeSymbol (tpPercent : ℚ) (symbol : String)
    (k1 k4 : List Kline) : AnalyzeResult :=
  if !(List.isSuffixOf "USDT".data symbol.data) then .err symbol "not USDT pair"
  else if jsReplaceFirst symbol "USDT" ∈ STABLE_BASES then
    .err symbol "stable base skipped"
  else
    let closes1 := k1.map (fun k => k.close)
    let highs1 := k1.map (fun k => k.high)
    let lows1 := k1.map (fun k => k.low)
    let vols1 := k1.map (fun k => k.volume)
    let closes4 := k4.map (fun k => k.close)
    if closes1.length < 50 ∨ closes4.length < 20 then
      .err symbol "not enough candles"
    else
      let ema8_1h := lastOpt (emaCalc 8 closes1)
      let ema21_1h := lastOpt (emaCalc 21 closes1)
      let rsi1h := lastOpt (rsiCalc 14 closes1)
      let macd1h := lastOpt (macdCalc 12 26 9 closes1)
      let atr1h := lastOpt (atrCalc 14 highs1 lows1 closes1)
      let ema8_4h := lastOpt (emaCalc 8 closes4)
      let ema21_4h := lastOpt (emaCalc 21 closes4)
      let macd4h := lastOpt (macdCalc 12 26 9 closes4)
      let sr := scoreReasons ema8_4h ema21_4h macd4h ema8_1h ema21_1h macd1h
        rsi1h vols1
      let entry := (lastOpt closes1).getD 0
      let tp := roundTo8 (entry * (1 + tpPercent / 100))
      let sl := match atr1h with
        | some a => max (1 / 100000000) (entry - a * (3 / 2))
        | none => 0
      .ok symbol sr.1 entry tp sl
        ⟨ema8_1h, ema21_1h, rsi1h, macd1h.bind (fun m => m.histogram), atr1h,
         ema8_4h, ema21_4h, macd4h.bind (fun m => m.histogram)⟩
        sr.2

/-- The API credentials of the venue adapter (`BITGET_API_KEY`,
`BITGET_API_SECRET`, `BITGET_API_PASSPHRASE`); unset environment variables
are the empty string. -/
structure Creds where
  key : String
  secret : String
  passphrase : String
deriving DecidableEq

/-- The two order-placement endpoint variants tried by `placeSpotOrder`. -/
inductive OrderEp where
  | spotV1TradeOrders        -- "/api/spot/v1/trade/orders"
  | v2SpotTradePlaceOrder    -- "/api/v2/spot/trade/place-order"
deriving DecidableEq

/-- The two balance endpoint variants tried by `getSpotBalancesSimple`. -/
inductive BalEp where
  | v2AccountAccounts        -- "/api/v2/account/accounts"
  | spotV1AccountAccounts    -- "/api/spot/v1/account/accounts"
deriving DecidableEq

/-- The JSON body `placeSpotOrder` sends (numeric fields kept as rationals;
the `String(...)` conversion is not modelled). -/
structure SpotOrderBody where
  symbol : String
  side : String
  type : String
  size : ℚ
  price : Option ℚ
deriving DecidableEq

/-- Body construction of `src/bitget.js` `placeSpotOrder` (lines 64-66). -/
def mkSpotOrderBody (symbol side : String) (size : ℚ) (orderType : String)
    (price : Option ℚ) : SpotOrderBody :=
  if orderType = "market" then ⟨symbol, side, "market", size, none⟩
  else ⟨symbol, side, "limit", size, price⟩

/-- A signed HTTP attempt against the venue: endpoint, body, and the
credentials the `ACCESS-*` headers were built from (the HMAC signature
itself is not modelled; the record witnesses that a signed request was
issued with these credentials). -/
structure OrderAttempt where
  ep : OrderEp
  body : SpotOrderBody
  creds : Creds
deriving DecidableEq

/-- `placeSpotOrder` of the active adapter `src/bitget.js` (lines 63-87):
tries `/api/spot/v1/trade/orders`, then `/api/v2/spot/trade/place-order`
on a thrown error, and returns the second variant's error when both fail.
No credential check is performed: the signed request is attempted with
whatever credentials are configured, empty or not. Returns the result and
the trace of signed attempts. -/
def placeSpotOrder_src (creds : Creds) (symbol side : String) (size : ℚ)
    (orderType : String) (price : Option ℚ)
    (venue : OrderEp → SpotOrderBody → Except String String) :
    Except String String × List OrderAttempt :=
  let body := mkSpotOrderBody symbol side size orderType price
  match venue .spotV1TradeOrders body with
  | .ok d => (.ok d, [⟨.spotV1TradeOrders, body, creds⟩])
  | .error _ =>
    match venue .v2SpotTradePlaceOrder body with
    | .ok d =>
      (.ok d, [⟨.spotV1TradeOrders, body, creds⟩,
               ⟨.v2SpotTradePlaceOrder, body, creds⟩])
    | .error e2 =>
      (.error e2, [⟨.spotV1TradeOrders, body, creds⟩,
                   ⟨.v2SpotTradePlaceOrder, body, creds⟩])

/-- Body construction of the variant adapter `src/unnamed/part_001`
`placeSpotOrder` (lines 101-107): upper-cases the side and attaches the
price only for non-market orders with a truthy price. -/
def mkSpotOrderBodyAlt (symbol side : String) (size : ℚ)
    (orderType : String) (price : Option ℚ) : SpotOrderBody :=
  ⟨symbol, side.toUpper, if orderType = "market" then "market" else "limit",
   size,
   if orderType = "market" then none
   else match price with
     | some p => if p = 0 then none else some p
     | none => none⟩

/-- `placeSpotOrder` of the variant adapter `src/unnamed/part_001` (lines
96-124): returns the no-credentials error immediately — without issuing
any signed request — when any of key/secret/passphrase is unset; otherwise
tries the two endpoint variants in order and falls back to a generic
failure message. -/
def placeSpotOrder_alt (creds : Creds) (symbol side : String) (size : ℚ)
    (orderType : String) (price : Option ℚ)
    (venue : OrderEp → SpotOrderBody → Except String String) :
    Except String String × List OrderAttempt :=
  if creds.key = "" ∨ creds.secret = "" ∨ creds.passphrase = "" then
    (.error "No Bitget API keys configured", [])
  else
    let body := mkSpotOrderBodyAlt symbol side size orderType price
    match venue .spotV1TradeOrders body with
    | .ok d => (.ok d, [⟨.spotV1TradeOrders, body, creds⟩])
    | .error _ =>
      match venue .v2SpotTradePlaceOrder body with
      | .ok d =>
        (.ok d, [⟨.spotV1TradeOrders, body, creds⟩,
                 ⟨.v2SpotTradePlaceOrder, body, creds⟩])
      | .error _ =>
        (.error "Order failed to place (check Bitget docs/keys). If demo, set BITGET_DEMO=1 and server will simulate.",
         [⟨.spotV1TradeOrders, body, creds⟩,
          ⟨.v2SpotTradePlaceOrder, body, creds⟩])

/-- One account row of a Bitget balance response (`acc.currency`,
`acc.available`, `acc.balance`, each possibly absent). -/
structure BgAccount where
  currency : Option String
  available : Option ℚ
  balance : Option ℚ
deriving DecidableEq

/-- A balance endpoint's payload: `res.data.data` is an array of accounts,
or something else (`raw` keeps the unparsed payload). -/
inductive BalPayload where
  | arr (accounts : List BgAccount)
  | nonArr (raw : String)
deriving DecidableEq

/-- JavaScript object insertion `out[k] = v` on an association list:
overwrites an existing key, appends otherwise. -/
def upsert (k : String) (v : ℚ) : List (String × ℚ) → List (String × ℚ)
  | [] => [(k, v)]
  | (k', v') :: rest =>
    if k' = k then (k, v) :: rest else (k', v') :: upsert k v rest

/-- `res.data.data.forEach(acc => { if (acc && acc.currency)
out[acc.currency.toUpperCase()] = Number(acc.available || acc.balance || 0) })`. -/
def normAccounts (l : List BgAccount) : List (String × ℚ) :=
  l.foldl
    (fun out acc =>
      match acc.currency with
      | some c => upsert c.toUpper (jsOrQ acc.available (jsOrQ acc.balance 0)) out
      | none => out)
    []

/-- Result of `getSpotBalancesSimple`: a normalized currency map, the raw
payload passthrough (`{ ok:true, data: res.data || res2.data || {} }`),
or `{ ok:false, error }`. -/
inductive BalResult where
  | okMap (data : List (String × ℚ))
  | okRaw (data : BalPayload)
  | fail (error : String)
deriving DecidableEq

/-- `getSpotBalancesSimple` of the active adapter `src/bitget.js` (lines
31-60). Both endpoint variants sit in one `try` block: a thrown error on
the first (v2) request jumps to the `catch` and returns failure without
attempting the second (v1) variant; the second variant is reached only
when the first responds without throwing but with a non-array payload. -/
def getSpotBalancesSimple_src (creds : Creds)
    (venue : BalEp → Except String BalPayload) :
    BalResult × List (BalEp × Creds) :=
  match venue .v2AccountAccounts with
  | .error e => (.fail e, [(.v2AccountAccounts, creds)])
  | .ok p1 =>
    match p1 with
    | .arr accounts => (.okMap (normAccounts accounts), [(.v2AccountAccounts, creds)])
    | .nonArr _ =>
      match venue .spotV1AccountAccounts with
      | .error e =>
        (.fail e, [(.v2AccountAccounts, creds), (.spotV1AccountAccounts, creds)])
      | .ok p2 =>
        match p2 with
        | .arr acc2 =>
          (.okMap (normAccounts acc2),
           [(.v2AccountAccounts, creds), (.spotV1AccountAccounts, creds)])
        | .nonArr _ =>
          (.okRaw p1,
           [(.v2AccountAccounts, creds), (.spotV1AccountAccounts, creds)])

/-! ## Helper lemmas -/

theorem find?_updateFirst_of_found {p : α → Bool} {f : α → α} {l : List α}
    {x : α} (hfind : l.find? p = some x) (hp : p (f x) = true) :
    (updateFirst p f l).find? p = some (f x) := by
  induction l with
  | nil => simp at hfind
  | cons a as ih =>
    by_cases ha : p a = true
    · rw [List.find?_cons_of_pos _ ha] at hfind
      obtain rfl : a = x := by exact Option.some.inj hfind
      simp [updateFirst, ha, List.find?_cons_of_pos _ hp]
    · have ha' : p a = false := by revert ha; cases p a <;> simp
      rw [List.find?_cons_of_neg _ (by simp [ha'])] at hfind
      simp only [updateFirst, ha', Bool.false_eq_true, if_false]
      rw [List.find?_cons_of_neg _ (by simp [ha'])]
      exact ih hfind

theorem mem_updateFirst {p : α → Bool} {f : α → α} {l : List α} {x : α}
    (hx : x ∈ updateFirst p f l) :
    x ∈ l ∨ ∃ y, y ∈ l ∧ p y = true ∧ x = f y := by
  induction l with
  | nil => simp [updateFirst] at hx
  | cons a as ih =>
    by_cases ha : p a = true
    · simp only [updateFirst, ha, if_true] at hx
      rcases List.mem_cons.mp hx with rfl | hx'
      · exact Or.inr ⟨a, List.mem_cons_self _ _, ha, rfl⟩
      · exact Or.inl (List.mem_cons_of_mem _ hx')
    · have ha' : p a = false := by revert ha; cases p a <;> simp
      simp only [updateFirst, ha', Bool.false_eq_true, if_false] at hx
      rcases List.mem_cons.mp hx with rfl | hx'
      · exact Or.inl (List.mem_cons_self _ _)
      · rcases ih hx' with h | ⟨y, hy, hpy, hxy⟩
        · exact Or.inl (List.mem_cons_of_mem _ h)
        · exact Or.inr ⟨y, List.mem_cons_of_mem _ hy, hpy, hxy⟩

/-- The record `/api/trade/close` persists for a trade `t` closed at exit
price `p`: status `CLOSED` and the fee/proceeds/PnL arithmetic of
`server.js` lines 299-314, with the venue sell outcome stored verbatim. -/
def closedVersion (env : Env) (t : Trade) (p : ℚ) (now : ℕ)
    (sr : Except String String) : Trade :=
  { t with
    status := "CLOSED"
    exit_price := some p
    sell_fee := some (t.qty * p * (env.feePercent / 100))
    gross_proceeds := some (t.qty * p)
    net_proceeds := some (t.qty * p - t.qty * p * (env.feePercent / 100))
    pnl := some (t.qty * p - t.qty * p * (env.feePercent / 100) - t.invested)
    closed_at := some now
    order_sell_result := some sr }

/-- Characterization of a successful `/api/trade/close` call with an
explicit nonzero exit price: the result and the persisted ledger. -/
theorem closeTrade_ok {env : Env} {trades : List Trade} {tid : TradeId}
    {t : Trade} {p : ℚ} {tkr cg : Option ℚ} {now : ℕ}
    {sr : Except String String}
    (hfind : trades.find? (fun x => decide (x.id = tid)) = some t)
    (hopen : t.status = "OPEN") (hp0 : p ≠ 0) (hp : 0 < p) :
    closeTrade env trades tid (some p) tkr cg now sr =
      (.ok (closedVersion env t p now sr),
       updateFirst (fun x => decide (x.id = tid))
         (fun _ => closedVersion env t p now sr) trades) := by
  simp [closeTrade, hfind, hopen, resolveExitPrice, hp0, not_le.mpr hp,
    closedVersion]

/-- Error paths of `/api/trade/close` return without touching the ledger;
on success the updated first matching record is found with status
`CLOSED`. Packaged as: any result of `closeTrade` is either an error with
the ledger unchanged, or the success shape of `closeTrade_ok`. -/
theorem closeTrade_cases (env : Env) (trades : List Trade) (tid : TradeId)
    (ep tkr cg : Option ℚ) (now : ℕ) (sr : Except String String) :
    (∃ e, closeTrade env trades tid ep tkr cg now sr = (.error e, trades)) ∨
    (∃ t, trades.find? (fun x => decide (x.id = tid)) = some t ∧
      t.status = "OPEN" ∧
      ∃ p, 0 < p ∧
        closeTrade env trades tid ep tkr cg now sr =
          (.ok (closedVersion env t p now sr),
           updateFirst (fun x => decide (x.id = tid))
             (fun _ => closedVersion env t p now sr) trades)) := by
  cases hf : trades.find? (fun x => decide (x.id = tid)) with
  | none => exact Or.inl ⟨.notFound, by simp [closeTrade, hf]⟩
  | some t =>
    by_cases hst : t.status = "OPEN"
    · by_cases hple : resolveExitPrice ep tkr cg ≤ 0
      · exact Or.inl ⟨.priceUnavailable, by simp [closeTrade, hf, hst, hple]⟩
      · exact Or.inr ⟨t, rfl, hst, resolveExitPrice ep tkr cg,
          lt_of_not_le hple,
          by simp [closeTrade, hf, hst, hple, closedVersion]⟩
    · exact Or.inl ⟨.notOpen, by simp [closeTrade, hf, hst]⟩

/-- A trade found by id keeps being found (as its closed version) after a
successful close. -/
theorem find?_after_close {env : Env} {trades L' : List Trade}
    {tid : TradeId} {t' : Trade} {ep tkr cg : Option ℚ} {now : ℕ}
    {sr : Except String String}
    (hok : closeTrade env trades tid ep tkr cg now sr = (.ok t', L')) :
    L'.find? (fun x => decide (x.id = tid)) = some t' ∧
    t'.status = "CLOSED" := by
  rcases closeTrade_cases env trades tid ep tkr cg now sr with
    ⟨e, he⟩ | ⟨t, hf, hst, p, hp, hcl⟩
  · rw [he] at hok; simp at hok
  · rw [hcl] at hok
    obtain ⟨h1, h2⟩ := Prod.mk.injEq .. ▸ hok
    obtain rfl : closedVersion env t p now sr = t' := by
      exact Except.ok.inj h1
    subst h2
    have hid : t.id = tid := by simpa using List.find?_some hf
    refine ⟨find?_updateFirst_of_found hf ?_, rfl⟩
    simp [closedVersion, hid]

/-! ## Concrete objects used by scenario witnesses and counterexamples -/

/-- A generic open ledger record (entry 10, quantity 2, TP 11). -/
def tOpen : Trade :=
  { id := .live 1, symbol := "XUSDT", side := "BUY", qty := 2,
    entry_price := 10, invested := 20, buy_fee := 1/25, tp_price := 11,
    status := "OPEN", demo := false, order_error := none,
    order_result := some "resp", created_at := 1, autoSell := some true,
    exit_price := none, sell_fee := none, gross_proceeds := none,
    net_proceeds := none, pnl := none, closed_at := none,
    order_sell_result := none }

/-- Scenario C's position: invested 100 at entry 10, so
`qty = +(100/10).toFixed(8)`. -/
def scTrade : Trade :=
  { id := .live 1, symbol := "XUSDT", side := "BUY",
    qty := roundTo8 (100 / 10), entry_price := 10, invested := 100,
    buy_fee := 100 * (defaultEnv.feePercent / 100), tp_price := 11,
    status := "OPEN", demo := false, order_error := none,
    order_result := some "resp", created_at := 1, autoSell := some true,
    exit_price := none, sell_fee := none, gross_proceeds := none,
    net_proceeds := none, pnl := none, closed_at := none,
    order_sell_result := none }

/-! ## Claim theorems -/

/-- C2: `close` is idempotent in effect. (a) If the position found for the
id is already `CLOSED`, the call returns the `notOpen` error (HTTP 400,
"trade not open") and hands back the input ledger unchanged — no field of
any position is written. (b) After a successful close, any second close
attempt on the same id returns `notOpen` and leaves the ledger exactly as
the first close persisted it. -/
theorem c2_close_idempotent (env : Env) (trades : List Trade)
    (tid : TradeId) (ep tkr cg : Option ℚ) (now : ℕ)
    (sr : Except String String) :
    (∀ t, trades.find? (fun x => decide (x.id = tid)) = some t →
      t.status = "CLOSED" →
      closeTrade env trades tid ep tkr cg now sr = (.error .notOpen, trades)) ∧
    (∀ t' L' (ep2 tkr2 cg2 : Option ℚ) (now2 : ℕ)
        (sr2 : Except String String),
      closeTrade env trades tid ep tkr cg now sr = (.ok t', L') →
      closeTrade env L' tid ep2 tkr2 cg2 now2 sr2 = (.error .notOpen, L')) := by
  constructor
  · intro t hfind hclosed
    simp [closeTrade, hfind, hclosed]
  · intro t' L' ep2 tkr2 cg2 now2 sr2 hok
    obtain ⟨hfind2, hclosed2⟩ := find?_after_close hok
    simp [closeTrade, hfind2, hclosed2]

/-- Witness for C2: a ledger holding one already-closed position rejects a
close with `notOpen` and is unchanged, and closing `tOpen` then attempting
a second close leaves the once-closed ledger untouched. -/
theorem c2_close_idempotent_witness :
    ([closedVersion defaultEnv tOpen 12 7 (.ok "r")].find?
        (fun x => decide (x.id = TradeId.live 1)) =
      some (closedVersion defaultEnv tOpen 12 7 (.ok "r"))) ∧
    (closedVersion defaultEnv tOpen 12 7 (.ok "r")).status = "CLOSED" ∧
    closeTrade defaultEnv [closedVersion defaultEnv tOpen 12 7 (.ok "r")]
        (.live 1) (some 12) none none 8 (.ok "r") =
      (.error .notOpen, [closedVersion defaultEnv tOpen 12 7 (.ok "r")]) ∧
    closeTrade defaultEnv [tOpen] (.live 1) (some 12) none none 7
        (.ok "r") =
      (.ok (closedVersion defaultEnv tOpen 12 7 (.ok "r")),
       [closedVersion defaultEnv tOpen 12 7 (.ok "r")]) ∧
    closeTrade defaultEnv [closedVersion defaultEnv tOpen 12 7 (.ok "r")]
        (.live 1) (some 13) none none 8 (.error "late") =
      (.error .notOpen, [closedVersion defaultEnv tOpen 12 7 (.ok "r")]) := by
  refine ⟨rfl, rfl, ?_, rfl, ?_⟩
  · exact (c2_close_idempotent defaultEnv
      [closedVersion defaultEnv tOpen 12 7 (.ok "r")] (.live 1) (some 12)
      none none 8 (.ok "r")).1 (closedVersion defaultEnv tOpen 12 7 (.ok "r"))
      rfl rfl
  · exact (c2_close_idempotent defaultEnv [tOpen] (.live 1) (some 12)
      none none 7 (.ok "r")).2 (closedVersion defaultEnv tOpen 12 7 (.ok "r"))
      [closedVersion defaultEnv tOpen 12 7 (.ok "r")] (some 13) none none 8
      (.error "late") rfl

/-- Scenario C's quantity: `+(100/10).toFixed(8)` is exactly `10`. -/
theorem scTrade_qty : scTrade.qty = 10 := by
  show roundTo8 (100 / 10) = 10
  unfold roundTo8
  norm_num [round_eq]

/-- C3: the close arithmetic. For every position closed at exit price `p`,
the stored fields satisfy exactly `gross_proceeds = qty * p`,
`sell_fee = gross * (feePercent/100)`, `net_proceeds = gross - sell_fee`,
`pnl = net - invested` (JS numbers modelled as exact rationals per the
spec's fixed-point numeric semantics). Scenario C: invested 100 at entry
10 gives `qty = 10.00000000`; closing at 11 with fee 0.2% stores gross
110, fee 0.22, net 109.78, pnl 9.78 — as exact rationals. -/
theorem c3_pnl_identity :
    (∀ (env : Env) (trades : List Trade) (tid : TradeId) (t : Trade)
       (p : ℚ) (tkr cg : Option ℚ) (now : ℕ) (sr : Except String String),
      trades.find? (fun x => decide (x.id = tid)) = some t →
      t.status = "OPEN" → 0 < p →
      ∃ L', closeTrade env trades tid (some p) tkr cg now sr =
          (.ok (closedVersion env t p now sr), L') ∧
        (closedVersion env t p now sr).gross_proceeds = some (t.qty * p) ∧
        (closedVersion env t p now sr).sell_fee =
          some (t.qty * p * (env.feePercent / 100)) ∧
        (closedVersion env t p now sr).net_proceeds =
          some (t.qty * p - t.qty * p * (env.feePercent / 100)) ∧
        (closedVersion env t p now sr).pnl =
          some (t.qty * p - t.qty * p * (env.feePercent / 100)
            - t.invested)) ∧
    (scTrade.qty = 10 ∧
     (closeTrade defaultEnv [scTrade] (.live 1) (some 11) none none 9
         (.ok "r")).1 =
       .ok (closedVersion defaultEnv scTrade 11 9 (.ok "r")) ∧
     (closedVersion defaultEnv scTrade 11 9 (.ok "r")).gross_proceeds =
       some 110 ∧
     (closedVersion defaultEnv scTrade 11 9 (.ok "r")).sell_fee =
       some (11/50) ∧
     (closedVersion defaultEnv scTrade 11 9 (.ok "r")).net_proceeds =
       some (5489/50) ∧
     (closedVersion defaultEnv scTrade 11 9 (.ok "r")).pnl =
       some (489/50)) := by
  constructor
  · intro env trades tid t p tkr cg now sr hfind hopen hp
    exact ⟨_, closeTrade_ok hfind hopen (ne_of_gt hp) hp, rfl, rfl,
      rfl, rfl⟩
  · refine ⟨scTrade_qty, rfl, ?_, ?_, ?_, ?_⟩
    · show some (scTrade.qty * 11) = some (110 : ℚ)
      rw [scTrade_qty]; norm_num
    · show some (scTrade.qty * 11 * (defaultEnv.feePercent / 100)) =
        some ((11 : ℚ)/50)
      rw [scTrade_qty]; norm_num [defaultEnv]
    · show some (scTrade.qty * 11
          - scTrade.qty * 11 * (defaultEnv.feePercent / 100)) =
        some ((5489 : ℚ)/50)
      rw [scTrade_qty]; norm_num [defaultEnv]
    · show some (scTrade.qty * 11
          - scTrade.qty * 11 * (defaultEnv.feePercent / 100)
          - scTrade.invested) =
        some ((489 : ℚ)/50)
      rw [scTrade_qty]
      norm_num [defaultEnv, scTrade]

/-- Witness for C3: the general identity applied to the Scenario C ledger. -/
theorem c3_pnl_identity_witness :
    ([scTrade].find? (fun x => decide (x.id = TradeId.live 1)) =
      some scTrade) ∧
    scTrade.status = "OPEN" ∧ (0 : ℚ) < 11 ∧
    (∃ L', closeTrade defaultEnv [scTrade] (.live 1) (some 11) none none 9
        (.ok "r") =
        (.ok (closedVersion defaultEnv scTrade 11 9 (.ok "r")), L') ∧
      (closedVersion defaultEnv scTrade 11 9 (.ok "r")).gross_proceeds =
        some (scTrade.qty * 11) ∧
      (closedVersion defaultEnv scTrade 11 9 (.ok "r")).sell_fee =
        some (scTrade.qty * 11 * (defaultEnv.feePercent / 100)) ∧
      (closedVersion defaultEnv scTrade 11 9 (.ok "r")).net_proceeds =
        some (scTrade.qty * 11
          - scTrade.qty * 11 * (defaultEnv.feePercent / 100)) ∧
      (closedVersion defaultEnv scTrade 11 9 (.ok "r")).pnl =
        some (scTrade.qty * 11
          - scTrade.qty * 11 * (defaultEnv.feePercent / 100)
          - scTrade.invested)) := by
  refine ⟨rfl, rfl, by norm_num, ?_⟩
  exact c3_pnl_identity.1 defaultEnv [scTrade] (.live 1) scTrade 11 none
    none 9 (.ok "r") rfl rfl (by norm_num)

/-- C10: the close transition is local-first. For every open position and
positive explicit exit price, `closeTrade` transitions the position to
`CLOSED` with exit price, fees, proceeds, PnL and close timestamp, and
persists the updated ledger, for **every** venue sell outcome
`sellOutcome` — including failures, which are only recorded in
`order_sell_result` and never prevent or roll back the closure. -/
theorem c10_close_outlives_sell_failure (env : Env) (trades : List Trade)
    (tid : TradeId) (t : Trade) (p : ℚ) (tkr cg : Option ℚ) (now : ℕ)
    (sellOutcome : Except String String)
    (hfind : trades.find? (fun x => decide (x.id = tid)) = some t)
    (hopen : t.status = "OPEN") (hp : 0 < p) :
    closeTrade env trades tid (some p) tkr cg now sellOutcome =
      (.ok (closedVersion env t p now sellOutcome),
       updateFirst (fun x => decide (x.id = tid))
         (fun _ => closedVersion env t p now sellOutcome) trades) ∧
    (closedVersion env t p now sellOutcome).status = "CLOSED" ∧
    (closedVersion env t p now sellOutcome).exit_price = some p ∧
    (closedVersion env t p now sellOutcome).closed_at = some now ∧
    (closedVersion env t p now sellOutcome).order_sell_result =
      some sellOutcome := by
  exact ⟨closeTrade_ok hfind hopen (ne_of_gt hp) hp, rfl, rfl, rfl, rfl⟩

/-- Witness for C10: closing `tOpen` at 12 while the venue sell fails with
an error still persists the closed record, the error stored in
`order_sell_result`. -/
theorem c10_close_outlives_sell_failure_witness :
    ([tOpen].find? (fun x => decide (x.id = TradeId.live 1)) = some tOpen) ∧
    tOpen.status = "OPEN" ∧ (0 : ℚ) < 12 ∧
    (closeTrade defaultEnv [tOpen] (.live 1) (some 12) none none 7
        (.error "venue rejected sell") =
      (.ok (closedVersion defaultEnv tOpen 12 7 (.error "venue rejected sell")),
       updateFirst (fun x => decide (x.id = TradeId.live 1))
         (fun _ => closedVersion defaultEnv tOpen 12 7
           (.error "venue rejected sell")) [tOpen]) ∧
     (closedVersion defaultEnv tOpen 12 7
       (.error "venue rejected sell")).status = "CLOSED" ∧
     (closedVersion defaultEnv tOpen 12 7
       (.error "venue rejected sell")).exit_price = some 12 ∧
     (closedVersion defaultEnv tOpen 12 7
       (.error "venue rejected sell")).closed_at = some 7 ∧
     (closedVersion defaultEnv tOpen 12 7
       (.error "venue rejected sell")).order_sell_result =
       some (.error "venue rejected sell")) := by
  refine ⟨rfl, rfl, by norm_num, ?_⟩
  exact c10_close_outlives_sell_failure defaultEnv [tOpen] (.live 1) tOpen
    12 none none 7 (.error "venue rejected sell") rfl rfl (by norm_num)

/-- C4: the confluence score is an additive integer over the six
independent conditions with weights 3 (4h EMA8>EMA21), 2 (4h MACD
histogram > 0), 2 (1h EMA8>EMA21), 1 (1h MACD histogram > 0), 1 (1h RSI
strictly between 45 and 65), 1 (last 1h volume > 1.5× the trailing
20-period average), each satisfied condition appending its reason string;
consequently the Scenario A configuration (both EMA conditions, both MACD
histograms positive, RSI = 55, no volume spike) scores 3+2+2+1+1 = 9 with
exactly the five matched reasons. -/
theorem c4_score_additive (ema8_4h ema21_4h : Option ℚ)
    (macd4h : Option MacdOut) (ema8_1h ema21_1h : Option ℚ)
    (macd1h : Option MacdOut) (rsi1h : Option ℚ) (vols1 : List ℚ) :
    scoreReasons ema8_4h ema21_4h macd4h ema8_1h ema21_1h macd1h rsi1h
        vols1 =
      ((if jsGT ema8_4h ema21_4h then 3 else 0) +
       (if histPos macd4h then 2 else 0) +
       (if jsGT ema8_1h ema21_1h then 2 else 0) +
       (if histPos macd1h then 1 else 0) +
       (if jsGT rsi1h (some 45) && jsLT rsi1h (some 65) then 1 else 0) +
       (if volSpike vols1 then 1 else 0),
       (if jsGT ema8_4h ema21_4h then ["4H EMA8>21"] else []) ++
       (if histPos macd4h then ["4H MACD>0"] else []) ++
       (if jsGT ema8_1h ema21_1h then ["1H EMA8>21"] else []) ++
       (if histPos macd1h then ["1H MACD>0"] else []) ++
       (if jsGT rsi1h (some 45) && jsLT rsi1h (some 65) then ["RSI neutral"]
        else []) ++
       (if volSpike vols1 then ["Volume spike"] else [])) ∧
    (jsGT ema8_4h ema21_4h = true → histPos macd4h = true →
     jsGT ema8_1h ema21_1h = true → histPos macd1h = true →
     rsi1h = some 55 → volSpike vols1 = false →
     scoreReasons ema8_4h ema21_4h macd4h ema8_1h ema21_1h macd1h rsi1h
         vols1 =
       (9, ["4H EMA8>21", "4H MACD>0", "1H EMA8>21", "1H MACD>0",
            "RSI neutral"])) := by
  constructor
  · simp only [scoreReasons]
    split_ifs <;> simp
  · intro h1 h2 h3 h4 h5 h6
    subst h5
    have h7a : jsGT (some (55 : ℚ)) (some 45) = true := by
      norm_num [jsGT]
    have h7b : jsLT (some (55 : ℚ)) (some 65) = true := by
      norm_num [jsLT]
    simp only [scoreReasons, h1, h2, h3, h4, h6, h7a, h7b, Bool.and_self,
      if_true, Bool.false_eq_true, if_false]
    norm_num

/-- Witness for C4: a concrete Scenario A snapshot (all four trend
conditions true, RSI 55, flat volumes) scores 9 with the five reasons. -/
theorem c4_score_additive_witness :
    jsGT (some (5 : ℚ)) (some 4) = true ∧
    histPos (some ⟨1, some (1/2), some (1/2)⟩) = true ∧
    (some (55 : ℚ)) = some 55 ∧
    volSpike (List.replicate 30 (10 : ℚ)) = false ∧
    scoreReasons (some 5) (some 4) (some ⟨1, some (1/2), some (1/2)⟩)
        (some 5) (some 4) (some ⟨1, some (1/2), some (1/2)⟩) (some 55)
        (List.replicate 30 10) =
      (9, ["4H EMA8>21", "4H MACD>0", "1H EMA8>21", "1H MACD>0",
           "RSI neutral"]) := by
  have hg : jsGT (some (5 : ℚ)) (some 4) = true := by norm_num [jsGT]
  have hh : histPos (some (⟨1, some (1/2), some (1/2)⟩ : MacdOut)) = true := by
    norm_num [histPos]
  have hv : volSpike (List.replicate 30 (10 : ℚ)) = false := by
    simp only [volSpike, lastN, lastOpt, jsGT, List.getLast?_replicate]
    norm_num [List.sum_replicate, List.drop_replicate]
  exact ⟨hg, hh, rfl, hv,
    (c4_score_additive (some 5) (some 4) (some ⟨1, some (1/2), some (1/2)⟩)
      (some 5) (some 4) (some ⟨1, some (1/2), some (1/2)⟩) (some 55)
      (List.replicate 30 10)).2 hg hh hg hh rfl hv⟩

/-- C6: for every USDT-quoted, non-stablecoin base symbol whose 1h series
is shorter than 50 entries or whose 4h series is shorter than 20, the
analysis returns the `"not enough candles"` insufficient-data result —
an `err` value, never a numeric score. -/
theorem c6_insufficient_candles (tpPercent : ℚ) (symbol : String)
    (k1 k4 : List Kline)
    (hq : List.isSuffixOf "USDT".data symbol.data = true)
    (hb : jsReplaceFirst symbol "USDT" ∉ STABLE_BASES)
    (hlen : k1.length < 50 ∨ k4.length < 20) :
    analyzeSymbol tpPercent symbol k1 k4 =
      .err symbol "not enough candles" := by
  have hlen' : (k1.map (fun k => k.close)).length < 50 ∨
      (k4.map (fun k => k.close)).length < 20 := by
    simpa [List.length_map] using hlen
  simp only [analyzeSymbol, hq, Bool.not_true, Bool.false_eq_true,
    if_false, if_neg hb, if_pos hlen']

/-- Witness for C6 (Scenario B): `BTCUSDT` with only 10 one-hour candles
yields exactly `{ok:false, reason:"not enough candles"}`. -/
theorem c6_insufficient_candles_witness :
    List.isSuffixOf "USDT".data "BTCUSDT".data = true ∧
    jsReplaceFirst "BTCUSDT" "USDT" ∉ STABLE_BASES ∧
    ((List.replicate 10 (⟨0, 1, 2, 1, 1, 1⟩ : Kline)).length < 50 ∨
     (List.replicate 25 (⟨0, 1, 2, 1, 1, 1⟩ : Kline)).length < 20) ∧
    analyzeSymbol 10 "BTCUSDT" (List.replicate 10 ⟨0, 1, 2, 1, 1, 1⟩)
        (List.replicate 25 ⟨0, 1, 2, 1, 1, 1⟩) =
      .err "BTCUSDT" "not enough candles" := by
  refine ⟨by decide, by decide, by simp, ?_⟩
  exact c6_insufficient_candles 10 "BTCUSDT" _ _ (by decide) (by decide)
    (by simp)

/-- Empty credentials: no key, secret, or passphrase configured. -/
def noCreds : Creds := ⟨"", "", ""⟩

/-- Non-empty credentials. -/
def someCreds : Creds := ⟨"k", "s", "p"⟩

/-- A venue on which every order endpoint variant fails. -/
def venueAllFail : OrderEp → SpotOrderBody → Except String String :=
  fun _ _ => .error "Request failed with status code 400"

/-- Counterexample to C7. In the active adapter (`src/bitget.js`,
imported by `server.js`), an order placement with **no** configured
credentials still issues both signed endpoint attempts (the attempt trace
is non-empty — two requests carrying the empty credentials) and returns
the venue's error, not a no-credentials failure. -/
theorem c7_counterexample :
    (placeSpotOrder_src noCreds "BTCUSDT" "buy" 1 "market" none
        venueAllFail).2 =
      [⟨.spotV1TradeOrders, mkSpotOrderBody "BTCUSDT" "buy" 1 "market" none,
        noCreds⟩,
       ⟨.v2SpotTradePlaceOrder, mkSpotOrderBody "BTCUSDT" "buy" 1 "market"
         none, noCreds⟩] ∧
    (placeSpotOrder_src noCreds "BTCUSDT" "buy" 1 "market" none
        venueAllFail).2 ≠ [] ∧
    (placeSpotOrder_src noCreds "BTCUSDT" "buy" 1 "market" none
        venueAllFail).1 =
      .error "Request failed with status code 400" := by
  refine ⟨rfl, ?_, rfl⟩
  intro h
  simp [placeSpotOrder_src, venueAllFail] at h

/-- C7 amended: only the variant adapter (`src/unnamed/part_001`)
implements the claimed behaviour — with any of key/secret/passphrase
unset, its `placeSpotOrder` returns the no-credentials failure
immediately, with an empty attempt trace (no signed request issued). -/
theorem c7_amended_alt_no_creds (creds : Creds) (symbol side : String)
    (size : ℚ) (orderType : String) (price : Option ℚ)
    (venue : OrderEp → SpotOrderBody → Except String String)
    (h : creds.key = "" ∨ creds.secret = "" ∨ creds.passphrase = "") :
    placeSpotOrder_alt creds symbol side size orderType price venue =
      (.error "No Bitget API keys configured", []) := by
  simp only [placeSpotOrder_alt, if_pos h]

/-- Witness for the amended C7 at empty credentials. -/
theorem c7_amended_alt_no_creds_witness :
    (noCreds.key = "" ∨ noCreds.secret = "" ∨ noCreds.passphrase = "") ∧
    placeSpotOrder_alt noCreds "BTCUSDT" "buy" 1 "market" none
        venueAllFail =
      (.error "No Bitget API keys configured", []) :=
  ⟨Or.inl rfl,
   c7_amended_alt_no_creds noCreds "BTCUSDT" "buy" 1 "market" none
     venueAllFail (Or.inl rfl)⟩

/-- A balances venue on which the first (v2) variant's request throws and
the second (v1) variant would succeed with array data. -/
def balVenueFstThrows : BalEp → Except String BalPayload :=
  fun ep =>
    match ep with
    | .v2AccountAccounts => .error "Request failed with status code 404"
    | .spotV1AccountAccounts => .ok (.arr [⟨some "USDT", some 100, none⟩])

/-- Counterexample to C8. In `src/bitget.js`, `getSpotBalancesSimple`
wraps both endpoint variants in a single `try` block: when the first
variant's request throws, the adapter returns failure immediately with
only one attempt in its trace — although the second variant was never
attempted and would have succeeded. -/
theorem c8_counterexample :
    getSpotBalancesSimple_src someCreds balVenueFstThrows =
      (.fail "Request failed with status code 404",
       [(.v2AccountAccounts, someCreds)]) ∧
    balVenueFstThrows .spotV1AccountAccounts =
      .ok (.arr [⟨some "USDT", some 100, none⟩]) := ⟨rfl, rfl⟩

/-- C8 amended. (a) Order placement does follow the claimed discipline:
the adapter returns success with the first variant that responds without
error, and failure (the second variant's error) only after both variants
were attempted and failed. (b) For balances, a thrown error on the first
variant returns failure immediately with only that variant attempted;
the second variant is attempted only when the first responds without
throwing but with a non-array payload. -/
theorem c8_amended_fallback (creds : Creds) (symbol side : String)
    (size : ℚ) (orderType : String) (price : Option ℚ)
    (venue : OrderEp → SpotOrderBody → Except String String)
    (bvenue : BalEp → Except String BalPayload) :
    (∀ d, venue .spotV1TradeOrders
        (mkSpotOrderBody symbol side size orderType price) = .ok d →
      placeSpotOrder_src creds symbol side size orderType price venue =
        (.ok d, [⟨.spotV1TradeOrders,
          mkSpotOrderBody symbol side size orderType price, creds⟩])) ∧
    (∀ e d, venue .spotV1TradeOrders
        (mkSpotOrderBody symbol side size orderType price) = .error e →
      venue .v2SpotTradePlaceOrder
        (mkSpotOrderBody symbol side size orderType price) = .ok d →
      placeSpotOrder_src creds symbol side size orderType price venue =
        (.ok d, [⟨.spotV1TradeOrders,
          mkSpotOrderBody symbol side size orderType price, creds⟩,
          ⟨.v2SpotTradePlaceOrder,
          mkSpotOrderBody symbol side size orderType price, creds⟩])) ∧
    (∀ e e2, venue .spotV1TradeOrders
        (mkSpotOrderBody symbol side size orderType price) = .error e →
      venue .v2SpotTradePlaceOrder
        (mkSpotOrderBody symbol side size orderType price) = .error e2 →
      placeSpotOrder_src creds symbol side size orderType price venue =
        (.error e2, [⟨.spotV1TradeOrders,
          mkSpotOrderBody symbol side size orderType price, creds⟩,
          ⟨.v2SpotTradePlaceOrder,
          mkSpotOrderBody symbol side size orderType price, creds⟩])) ∧
    (∀ e, bvenue .v2AccountAccounts = .error e →
      getSpotBalancesSimple_src creds bvenue =
        (.fail e, [(.v2AccountAccounts, creds)])) := by
  refine ⟨?_, ?_, ?_, ?_⟩
  · intro d hd
    simp [placeSpotOrder_src, hd]
  · intro e d he hd
    simp [placeSpotOrder_src, he, hd]
  · intro e e2 he he2
    simp [placeSpotOrder_src, he, he2]
  · intro e he
    simp [getSpotBalancesSimple_src, he]

/-- Witness for the amended C8: both order variants failing yields the
second variant's error after two attempts, and the throwing balances
variant yields immediate failure after one attempt. -/
theorem c8_amended_fallback_witness :
    venueAllFail .spotV1TradeOrders
        (mkSpotOrderBody "BTCUSDT" "buy" 1 "market" none) =
      .error "Request failed with status code 400" ∧
    venueAllFail .v2SpotTradePlaceOrder
        (mkSpotOrderBody "BTCUSDT" "buy" 1 "market" none) =
      .error "Request failed with status code 400" ∧
    balVenueFstThrows .v2AccountAccounts =
      .error "Request failed with status code 404" ∧
    placeSpotOrder_src someCreds "BTCUSDT" "buy" 1 "market" none
        venueAllFail =
      (.error "Request failed with status code 400",
       [⟨.spotV1TradeOrders, mkSpotOrderBody "BTCUSDT" "buy" 1 "market"
         none, someCreds⟩,
        ⟨.v2SpotTradePlaceOrder, mkSpotOrderBody "BTCUSDT" "buy" 1 "market"
         none, someCreds⟩]) ∧
    getSpotBalancesSimple_src someCreds balVenueFstThrows =
      (.fail "Request failed with status code 404",
       [(.v2AccountAccounts, someCreds)]) :=
  ⟨rfl, rfl, rfl,
   (c8_amended_fallback someCreds "BTCUSDT" "buy" 1 "market" none
     venueAllFail balVenueFstThrows).2.2.1 _ _ rfl rfl,
   (c8_amended_fallback someCreds "BTCUSDT" "buy" 1 "market" none
     venueAllFail balVenueFstThrows).2.2.2 _ rfl⟩

/-- An order request for `AUSDT`. -/
def reqA : OrderReq := ⟨"AUSDT", "buy", none⟩

/-- An order request for `BUSDT`. -/
def reqB : OrderReq := ⟨"BUSDT", "buy", none⟩

/-- World inputs for an order call: 1000 USDT balance, ticker price 10,
venue accepts, clock at a fixed millisecond. -/
def wMs : OrderEnvIn := ⟨1000, some 10, none, .ok "filled", 1700000000000⟩

/-- Default element for `List.getD` on ledgers. -/
def dummyTrade : Trade :=
  { id := .live 0, symbol := "", side := "", qty := 0, entry_price := 0,
    invested := 0, buy_fee := 0, tp_price := 0, status := "", demo := false,
    order_error := none, order_result := none, created_at := 0,
    autoSell := none, exit_price := none, sell_fee := none,
    gross_proceeds := none, net_proceeds := none, pnl := none,
    closed_at := none, order_sell_result := none }

/-- Counterexample to C9: two order requests executed in the same
millisecond (both venue-confirmed) append two distinct positions —
different symbols — carrying the **same** id `"t_" + ms`, so the ledger is
not unique by id. -/
theorem c9_counterexample :
    (runSteps defaultEnv [.order reqA wMs, .order reqB wMs] []).length = 2 ∧
    ((runSteps defaultEnv [.order reqA wMs, .order reqB wMs] []).getD 0
        dummyTrade).id =
      ((runSteps defaultEnv [.order reqA wMs, .order reqB wMs] []).getD 1
        dummyTrade).id ∧
    ((runSteps defaultEnv [.order reqA wMs, .order reqB wMs] []).getD 0
        dummyTrade).symbol ≠
      ((runSteps defaultEnv [.order reqA wMs, .order reqB wMs] []).getD 1
        dummyTrade).symbol := by
  exact ⟨rfl, rfl, by decide⟩

/-- Shape of the ledger after one `/api/bitget/order` call: unchanged on
the three error paths, one appended record (carrying the id and timestamp
of the call) otherwise. -/
theorem orderRequest_ledger_shape (env : Env) (req : OrderReq)
    (w : OrderEnvIn) (trades : List Trade) :
    (orderRequest env req w trades).2 = trades ∨
    ∃ tr, (orderRequest env req w trades).2 = trades ++ [tr] ∧
      tr.created_at = w.now ∧
      (tr.id = TradeId.sim w.now ∨ tr.id = TradeId.live w.now) := by
  by_cases h1 : req.symbol = "" ∨ req.side = ""
  · exact Or.inl (by simp [orderRequest, h1])
  · by_cases h2 : w.usdtBal ≤ 0
    · exact Or.inl (by simp [orderRequest, h1, h2])
    · by_cases h3 : resolveExitPrice none w.tickerPrice w.cgPrice ≤ 0
      · exact Or.inl (by simp [orderRequest, h1, h2, h3])
      · cases ho : w.orderOutcome with
        | error e =>
          refine Or.inr ⟨_, by simp [orderRequest, h1, h2, h3, ho]; rfl,
            ?_, ?_⟩
          · rfl
          · exact Or.inl rfl
        | ok d =>
          refine Or.inr ⟨_, by simp [orderRequest, h1, h2, h3, ho]; rfl,
            ?_, ?_⟩
          · rfl
          · exact Or.inr rfl

/-- C9 amended: ids embed the creation branch and the millisecond
timestamp. Opens at distinct milliseconds get distinct ids (simulated and
venue-confirmed ids never collide with each other), and every ledger
append performed by the order endpoint carries `created_at = now` with id
`sim_ now` or `t_ now` — so uniqueness by id holds exactly when open
operations occur at pairwise-distinct milliseconds, not unconditionally. -/
theorem c9_amended_id_uniqueness :
    (∀ (n n' : ℕ), n ≠ n' →
      TradeId.live n ≠ TradeId.live n' ∧ TradeId.sim n ≠ TradeId.sim n') ∧
    (∀ (n n' : ℕ), TradeId.live n ≠ TradeId.sim n') ∧
    (∀ (env : Env) (req : OrderReq) (w : OrderEnvIn) (trades : List Trade),
      (orderRequest env req w trades).2 = trades ∨
      ∃ tr, (orderRequest env req w trades).2 = trades ++ [tr] ∧
        tr.created_at = w.now ∧
        (tr.id = TradeId.sim w.now ∨ tr.id = TradeId.live w.now)) := by
  refine ⟨?_, ?_, ?_⟩
  · intro n n' h
    exact ⟨fun hc => h (TradeId.live.inj hc), fun hc => h (TradeId.sim.inj hc)⟩
  · intro n n' hc
    exact TradeId.noConfusion hc
  · exact orderRequest_ledger_shape

/-- Witness for the amended C9 at milliseconds 1 and 2. -/
theorem c9_amended_id_uniqueness_witness :
    (1 : ℕ) ≠ 2 ∧
    (TradeId.live 1 ≠ TradeId.live 2 ∧ TradeId.sim 1 ≠ TradeId.sim 2) ∧
    TradeId.live 1 ≠ TradeId.sim 1 :=
  ⟨by decide, c9_amended_id_uniqueness.1 1 2 (by decide),
   c9_amended_id_uniqueness.2.1 1 1⟩

/-- Counterexample to C1: externally triggered order requests bypass the
concurrency cap — the order endpoint performs no open-count check. With
the configured count 1 (cap = 1), a buy cycle, an external order, a
monitor cycle and a second external order leave 2 `OPEN` positions. -/
theorem c1_counterexample :
    effMaxCon defaultEnv (some 1) = 1 ∧
    openCount (runSteps defaultEnv
      [.buy true (some 1) none [], .order reqA wMs,
       .monitor (fun _ => none) 5 (fun _ => .error "x"), .order reqB wMs]
      []) = 2 ∧
    ¬(openCount (runSteps defaultEnv
      [.buy true (some 1) none [], .order reqA wMs,
       .monitor (fun _ => none) 5 (fun _ => .error "x"), .order reqB wMs]
      []) ≤ 1) := by
  refine ⟨?_, rfl, ?_⟩
  · show (if (1 : ℚ) = 0 then defaultEnv.maxConcurrent else 1) = 1
    norm_num
  · intro h
    rw [show openCount (runSteps defaultEnv
      [.buy true (some 1) none [], .order reqA wMs,
       .monitor (fun _ => none) 5 (fun _ => .error "x"), .order reqB wMs]
      []) = 2 from rfl] at h
    exact absurd h (by decide)

/-- Filtering distributes over append, for the open count. -/
theorem openCount_append (l₁ l₂ : List Trade) :
    openCount (l₁ ++ l₂) = openCount l₁ + openCount l₂ := by
  simp [openCount, List.filter_append]

/-- Open count of a cons cell. -/
theorem openCount_cons (x : Trade) (l : List Trade) :
    openCount (x :: l) =
      (if x.status = "OPEN" then 1 else 0) + openCount l := by
  by_cases hs : x.status = "OPEN" <;>
    simp [openCount, List.filter_cons, hs] <;> omega

/-- One order request grows the open count by at most one. -/
theorem orderRequest_openCount (env : Env) (req : OrderReq) (w : OrderEnvIn)
    (L : List Trade) :
    openCount (orderRequest env req w L).2 ≤ openCount L + 1 := by
  rcases orderRequest_ledger_shape env req w L with h | ⟨tr, h, _, _⟩
  · rw [h]; omega
  · rw [h, openCount_append]
    have : openCount [tr] ≤ 1 := by
      by_cases hs : tr.status = "OPEN" <;>
        simp [openCount, List.filter_cons, hs]
    omega

/-- The buy loop of `autoWorker` keeps the open count at or below the cap
`n` it checks against before each buy. -/
theorem buyLoop_le (env : Env) (n : ℕ) (cfgPercent : Option ℚ)
    (sigs : List BuySignalIn) (L : List Trade)
    (h : openCount L ≤ n) :
    openCount (buyLoop env (n : ℚ) cfgPercent sigs L) ≤ n := by
  induction sigs generalizing L with
  | nil => simpa [buyLoop] using h
  | cons sig rest ih =>
    rw [buyLoop]
    by_cases hc : (n : ℚ) ≤ (openCount L : ℚ)
    · rw [if_pos hc]; exact h
    · rw [if_neg hc]
      have hlt : openCount L < n := by exact_mod_cast lt_of_not_le hc
      by_cases hd : L.any (fun t =>
          decide (t.symbol = sig.symbol) && decide (t.status = "OPEN"))
      · rw [if_pos hd]; exact ih L h
      · rw [if_neg hd]
        apply ih
        have := orderRequest_openCount env ⟨sig.symbol, "buy", cfgPercent⟩
          sig.w L
        omega

/-- One buy-cycle execution preserves `openCount ≤ cap` whenever the
effective cap is the natural number `n`. -/
theorem buyCycle_le (env : Env) (auto : Bool) (count cfgPercent : Option ℚ)
    (sigs : List BuySignalIn) (L : List Trade) (n : ℕ)
    (hcap : effMaxCon env count = (n : ℚ)) (h : openCount L ≤ n) :
    openCount (buyCycle env auto count cfgPercent sigs L) ≤ n := by
  rw [buyCycle]
  by_cases ha : auto = true
  · simp only [ha, Bool.not_true, Bool.false_eq_true, if_false, hcap]
    by_cases hc : (n : ℚ) ≤ (openCount L : ℚ)
    · rw [if_pos hc]; exact h
    · rw [if_neg hc]; exact buyLoop_le env n cfgPercent sigs L h
  · have ha' : auto = false := by revert ha; cases auto <;> simp
    simp only [ha', Bool.not_false, if_true]
    exact h

/-- Updating records to a `CLOSED` version never increases the open
count. -/
theorem openCount_updateFirst_closed (p : Trade → Bool) (f : Trade → Trade)
    (hf : ∀ x, (f x).status = "CLOSED") (l : List Trade) :
    openCount (updateFirst p f l) ≤ openCount l := by
  induction l with
  | nil => simp [updateFirst]
  | cons x xs ih =>
    by_cases hp : p x = true
    · simp only [updateFirst, hp, if_true]
      have h1 : openCount (f x :: xs) = openCount xs := by
        simp [openCount, List.filter_cons, hf x]
      have h2 : openCount xs ≤ openCount (x :: xs) := by
        by_cases hs : x.status = "OPEN" <;>
          simp [openCount, List.filter_cons, hs]
      omega
    · have hp' : p x = false := by revert hp; cases p x <;> simp
      simp only [updateFirst, hp', Bool.false_eq_true, if_false]
      rw [openCount_cons, openCount_cons]
      omega

/-- A close call never increases the open count. -/
theorem closeTrade_openCount (env : Env) (L : List Trade) (tid : TradeId)
    (ep tkr cg : Option ℚ) (now : ℕ) (sr : Except String String) :
    openCount (closeTrade env L tid ep tkr cg now sr).2 ≤ openCount L := by
  rcases closeTrade_cases env L tid ep tkr cg now sr with
    ⟨e, he⟩ | ⟨t, hf, hst, p, hp, hcl⟩
  · rw [he]
  · rw [hcl]
    exact openCount_updateFirst_closed _ _ (fun _ => rfl) L

/-- One monitor-loop iteration never increases the open count of the
threaded ledger. -/
theorem monitorBody_openCount (env : Env) (prices : String → Option ℚ)
    (now : ℕ) (sellResp : TradeId → Except String String) (t : Trade)
    (acc : List Trade × List (TradeId × ℚ)) :
    openCount (monitorBody env prices now sellResp t acc).1 ≤
      openCount acc.1 := by
  rw [monitorBody]
  cases prices t.symbol with
  | none => exact le_refl _
  | some latest =>
    dsimp only
    split_ifs
    · exact le_refl _
    · exact closeTrade_openCount env acc.1 t.id (some latest) none none now
        (sellResp t.id)
    · exact le_refl _
    · exact le_refl _

/-- The monitor loop never increases the open count. -/
theorem monitorGo_openCount (env : Env) (prices : String → Option ℚ)
    (now : ℕ) (sellResp : TradeId → Except String String)
    (l : List Trade) :
    ∀ acc, openCount (monitorGo env prices now sellResp l acc).1 ≤
      openCount acc.1 := by
  induction l with
  | nil => intro acc; exact le_refl _
  | cons t rest ih =>
    intro acc
    exact le_trans (ih (monitorBody env prices now sellResp t acc))
      (monitorBody_openCount env prices now sellResp t acc)

/-- One monitor-cycle execution never increases the open count. -/
theorem monitorCycle_openCount (env : Env) (prices : String → Option ℚ)
    (now : ℕ) (sellResp : TradeId → Except String String)
    (trades : List Trade) :
    openCount (monitorCycle env prices now sellResp trades).1 ≤
      openCount trades := by
  exact monitorGo_openCount env prices now sellResp _ (trades, [])

/-- C1 amended: over every sequence of interleaved buy-cycle and
monitor-cycle executions — without externally triggered order requests,
which perform no cap check and can exceed the cap — the number of `OPEN`
positions never exceeds the configured cap, provided every buy cycle
reads the same configured count (effective cap `n`) and the initial
ledger is within the cap. -/
theorem c1_amended_cap_invariant (env : Env) (count : Option ℚ) (n : ℕ)
    (steps : List SysStep) (L0 : List Trade)
    (hsteps : ∀ s ∈ steps,
      (∃ a p sg, s = SysStep.buy a count p sg) ∨
      (∃ pr nn sr, s = SysStep.monitor pr nn sr))
    (hcap : effMaxCon env count = (n : ℚ))
    (hinit : openCount L0 ≤ n) :
    openCount (runSteps env steps L0) ≤ n := by
  induction steps generalizing L0 with
  | nil => exact hinit
  | cons s rest ih =>
    rw [runSteps]
    rcases hsteps s (List.mem_cons_self _ _) with
      ⟨a, p, sg, rfl⟩ | ⟨pr, nn, sr, rfl⟩
    · exact ih _ (fun s' hs' => hsteps s' (List.mem_cons_of_mem _ hs'))
        (buyCycle_le env a count p sg L0 n hcap hinit)
    · exact ih _ (fun s' hs' => hsteps s' (List.mem_cons_of_mem _ hs'))
        (le_trans (monitorCycle_openCount env pr nn sr L0) hinit)

/-- Witness for the amended C1: a buy cycle with one signal followed by a
monitor cycle, from the empty ledger under the default cap 10, stays at
or below 10 open positions. -/
theorem c1_amended_cap_invariant_witness :
    (∀ s ∈ [SysStep.buy true none none [⟨"AUSDT", wMs⟩],
            SysStep.monitor (fun _ => none) 5 (fun _ => .error "x")],
      (∃ a p sg, s = SysStep.buy a none p sg) ∨
      (∃ pr nn sr, s = SysStep.monitor pr nn sr)) ∧
    effMaxCon defaultEnv none = ((10 : ℕ) : ℚ) ∧
    openCount [] ≤ 10 ∧
    openCount (runSteps defaultEnv
      [SysStep.buy true none none [⟨"AUSDT", wMs⟩],
       SysStep.monitor (fun _ => none) 5 (fun _ => .error "x")] []) ≤ 10 := by
  have hsteps : ∀ s ∈ [SysStep.buy true none none [⟨"AUSDT", wMs⟩],
      SysStep.monitor (fun _ => none) 5 (fun _ => .error "x")],
      (∃ a p sg, s = SysStep.buy a none p sg) ∨
      (∃ pr nn sr, s = SysStep.monitor pr nn sr) := by
    intro s hs
    rcases List.mem_cons.mp hs with rfl | hs2
    · exact Or.inl ⟨true, none, [⟨"AUSDT", wMs⟩], rfl⟩
    · rcases List.mem_cons.mp hs2 with rfl | hs3
      · exact Or.inr ⟨fun _ => none, 5, fun _ => .error "x", rfl⟩
      · cases hs3
  have hcap : effMaxCon defaultEnv none = ((10 : ℕ) : ℚ) := by
    show defaultEnv.maxConcurrent = ((10 : ℕ) : ℚ)
    norm_num [defaultEnv]
  have hinit : openCount ([] : List Trade) ≤ 10 := by simp [openCount]
  exact ⟨hsteps, hcap, hinit,
    c1_amended_cap_invariant defaultEnv none 10 _ [] hsteps hcap hinit⟩

/-- The close decision one monitor iteration takes for a trade: `some
(id, latest)` exactly when a truthy latest price exists, the take-profit
test fires, and `autoSell` is not explicitly disabled. -/
def monitorEntry (env : Env) (prices : String → Option ℚ) (t : Trade) :
    Option (TradeId × ℚ) :=
  match prices t.symbol with
  | none => none
  | some latest =>
    if latest = 0 then none
    else if tpHit env t latest then
      if t.autoSell ≠ some false then some (t.id, latest) else none
    else none

/-- One monitor iteration appends exactly its close decision to the
trace. -/
theorem monitorBody_trace (env : Env) (prices : String → Option ℚ)
    (now : ℕ) (sellResp : TradeId → Except String String) (t : Trade)
    (acc : List Trade × List (TradeId × ℚ)) :
    (monitorBody env prices now sellResp t acc).2 =
      acc.2 ++ (monitorEntry env prices t).toList := by
  rw [monitorBody, monitorEntry]
  cases prices t.symbol with
  | none => simp
  | some latest =>
    dsimp only
    split_ifs <;> simp

/-- The monitor loop's trace is the concatenation of the per-trade close
decisions. -/
theorem monitorGo_trace (env : Env) (prices : String → Option ℚ)
    (now : ℕ) (sellResp : TradeId → Except String String)
    (l : List Trade) :
    ∀ acc, (monitorGo env prices now sellResp l acc).2 =
      acc.2 ++ l.filterMap (monitorEntry env prices) := by
  induction l with
  | nil => intro acc; simp [monitorGo]
  | cons t rest ih =>
    intro acc
    rw [monitorGo, ih, monitorBody_trace]
    cases hg : monitorEntry env prices t <;>
      simp [List.filterMap_cons, hg]

/-- Every ledger record after a close call was already present or carries
the closed id. -/
theorem closeTrade_mem (env : Env) (L : List Trade) (tid : TradeId)
    (ep tkr cg : Option ℚ) (now : ℕ) (sr : Except String String)
    (x : Trade) (hx : x ∈ (closeTrade env L tid ep tkr cg now sr).2) :
    x ∈ L ∨ x.id = tid := by
  rcases closeTrade_cases env L tid ep tkr cg now sr with
    ⟨e, he⟩ | ⟨t, hf, hst, p, hp, hcl⟩
  · rw [he] at hx; exact Or.inl hx
  · rw [hcl] at hx
    rcases mem_updateFirst hx with h | ⟨y, hy, hpy, hxy⟩
    · exact Or.inl h
    · subst hxy
      have hid : t.id = tid := by simpa using List.find?_some hf
      exact Or.inr (by simpa [closedVersion] using hid)

/-- Every ledger record after the monitor loop was already present, or
its id appears in the trace of close requests. -/
theorem monitorGo_mem (env : Env) (prices : String → Option ℚ) (now : ℕ)
    (sellResp : TradeId → Except String String) (l : List Trade) :
    ∀ acc x, x ∈ (monitorGo env prices now sellResp l acc).1 →
      x ∈ acc.1 ∨ ∃ p, (x.id, p) ∈ (monitorGo env prices now sellResp l acc).2 := by
  induction l with
  | nil => intro acc x hx; exact Or.inl hx
  | cons t rest ih =>
    intro acc x hx
    rw [monitorGo] at hx ⊢
    rcases ih (monitorBody env prices now sellResp t acc) x hx with
      hmem | ⟨p, hp⟩
    · rw [monitorBody] at hmem
      cases hpr : prices t.symbol with
      | none =>
        rw [hpr] at hmem
        exact Or.inl hmem
      | some latest =>
        rw [hpr] at hmem
        dsimp only at hmem
        by_cases h0 : latest = 0
        · rw [if_pos h0] at hmem; exact Or.inl hmem
        · rw [if_neg h0] at hmem
          by_cases hhit : tpHit env t latest = true
          · rw [if_pos hhit] at hmem
            by_cases hauto : t.autoSell ≠ some false
            · rw [if_pos hauto] at hmem
              rcases closeTrade_mem env acc.1 t.id (some latest) none none
                  now (sellResp t.id) x hmem with h | h
              · exact Or.inl h
              · refine Or.inr ⟨latest, ?_⟩
                have hgt : monitorEntry env prices t = some (t.id, latest) := by
                  rw [monitorEntry, hpr]
                  simp [h0, hhit, hauto]
                rw [monitorGo_trace]
                refine List.mem_append.mpr (Or.inl ?_)
                rw [monitorBody_trace, hgt]
                simp [h]
            · rw [if_neg hauto] at hmem; exact Or.inl hmem
          · rw [if_neg hhit] at hmem; exact Or.inl hmem
    · exact Or.inr ⟨p, hp⟩

/-- C5: one monitor-cycle execution never closes an open position whose
latest available price is strictly below its take-profit price. Every
close request in the cycle's trace targets an open position whose latest
price is at least its `tp_price` and whose `autoSell` flag is not
explicitly disabled; and every record of the resulting ledger either was
already in the input ledger (unchanged) or its id carries such a close
request. The non-negativity hypotheses hold for every ledger this backend
creates (entry prices are positive and take-profits derived from them). -/
theorem c5_monitor_tp_safety (env : Env) (prices : String → Option ℚ)
    (now : ℕ) (sellResp : TradeId → Except String String)
    (trades : List Trade)
    (hfields : ∀ t ∈ trades, 0 ≤ t.tp_price ∧ 0 ≤ t.entry_price)
    (htp : 0 ≤ env.tpPercent) :
    (∀ tid p, (tid, p) ∈ (monitorCycle env prices now sellResp trades).2 →
      ∃ t, t ∈ trades ∧ t.id = tid ∧ t.status = "OPEN" ∧
        prices t.symbol = some p ∧ t.tp_price ≤ p ∧
        t.autoSell ≠ some false) ∧
    (∀ x, x ∈ (monitorCycle env prices now sellResp trades).1 →
      x ∈ trades ∨
      ∃ p, (x.id, p) ∈ (monitorCycle env prices now sellResp trades).2) := by
  constructor
  · intro tid p hm
    rw [monitorCycle, monitorGo_trace] at hm
    simp only [List.nil_append] at hm
    rcases List.mem_filterMap.mp hm with ⟨t, htf, hg⟩
    have htmem := (List.mem_filter.mp htf).1
    have hopen : t.status = "OPEN" := by
      simpa using (List.mem_filter.mp htf).2
    rw [monitorEntry] at hg
    cases hpr : prices t.symbol with
    | none => rw [hpr] at hg; simp at hg
    | some latest =>
      rw [hpr] at hg
      dsimp only at hg
      by_cases h0 : latest = 0
      · rw [if_pos h0] at hg; simp at hg
      · rw [if_neg h0] at hg
        by_cases hhit : tpHit env t latest = true
        · rw [if_pos hhit] at hg
          by_cases hauto : t.autoSell ≠ some false
          · rw [if_pos hauto] at hg
            simp only [Option.some.injEq, Prod.mk.injEq] at hg
            obtain ⟨hid, hlp⟩ := hg
            subst hlp
            refine ⟨t, htmem, hid, hopen, hpr, ?_, hauto⟩
            rw [tpHit, Bool.or_eq_true] at hhit
            rcases hhit with hA | hB
            · exact of_decide_eq_true hA
            · have hB' := of_decide_eq_true hB
              by_cases hz : t.tp_price = 0
              · rw [if_pos hz] at hB'
                have he := (hfields t htmem).2
                have hdiv : (0 : ℚ) ≤ env.tpPercent / 100 :=
                  div_nonneg htp (by norm_num)
                have hfac : (0 : ℚ) ≤ 1 + env.tpPercent / 100 := by linarith
                have hprod : (0 : ℚ) ≤
                    t.entry_price * (1 + env.tpPercent / 100) :=
                  mul_nonneg he hfac
                rw [hz]
                linarith
              · rw [if_neg hz] at hB'
                exact hB'
          · rw [if_neg hauto] at hg; simp at hg
        · rw [if_neg hhit] at hg; simp at hg
  · intro x hx
    rw [monitorCycle] at hx ⊢
    rcases monitorGo_mem env prices now sellResp _ (trades, []) x hx with
      h | ⟨p, hp⟩
    · exact Or.inl h
    · exact Or.inr ⟨p, hp⟩

/-- Witness for C5: `tOpen` (take-profit 11) with latest price 12 is
auto-sold — the trace carries its id at price 12, which the theorem
certifies as at or above its take-profit. -/
theorem c5_monitor_tp_safety_witness :
    (∀ t ∈ [tOpen], 0 ≤ t.tp_price ∧ 0 ≤ t.entry_price) ∧
    (0 : ℚ) ≤ defaultEnv.tpPercent ∧
    (TradeId.live 1, (12 : ℚ)) ∈ (monitorCycle defaultEnv
      (fun _ => some 12) 5 (fun _ => .ok "sold") [tOpen]).2 ∧
    (∃ t, t ∈ [tOpen] ∧ t.id = TradeId.live 1 ∧ t.status = "OPEN" ∧
      (fun _ => some (12 : ℚ)) t.symbol = some 12 ∧ t.tp_price ≤ 12 ∧
      t.autoSell ≠ some false) := by
  have h1 : ∀ t ∈ [tOpen], 0 ≤ t.tp_price ∧ 0 ≤ t.entry_price := by
    intro t ht
    rw [List.mem_singleton.mp ht]
    constructor <;> norm_num [tOpen]
  have h2 : (0 : ℚ) ≤ defaultEnv.tpPercent := by norm_num [defaultEnv]
  have h3 : (TradeId.live 1, (12 : ℚ)) ∈ (monitorCycle defaultEnv
      (fun _ => some 12) 5 (fun _ => .ok "sold") [tOpen]).2 := by
    rw [show (monitorCycle defaultEnv (fun _ => some 12) 5
      (fun _ => .ok "sold") [tOpen]).2 = [(TradeId.live 1, (12 : ℚ))]
      from rfl]
    exact List.mem_singleton.mpr rfl
  exact ⟨h1, h2, h3,
    (c5_monitor_tp_safety defaultEnv (fun _ => some 12) 5
      (fun _ => .ok "sold") [tOpen] h1 h2).1 (TradeId.live 1) 12 h3⟩

end DexScan
